import Mathlib

/-!
Shallow embedding of the `box` library (box/box.py): a fluent wrapper hierarchy
(Box, SizedBox, SequenceBox, MappingBox, MutableSetBox) over Python containers.

Modelling conventions:
* Python iterables handed to the container-generic `Box` operations are modelled
  as Lean lists of their elements, in iteration order.
* Python `None` flowing through `reduce`/`sum` is modelled with `Option`.
* Python exceptions are modelled with `Except PyError`; `PyError` enumerates the
  exception classes the source actually raises.
* Dynamic typing in `SequenceBox.__init__` and `Box._new` is modelled with an
  explicit Python-value type `PyVal` together with `pyTypeOf` and the
  reconstruction function `pyConstruct` (the call `item_type(iterable)`).
-/

namespace PyBox

/-- Exception classes raised by the code under verification (box/box.py). -/
inductive PyError where
  | indexError
  | zeroDivisionError
  | assertionError
  | typeError
deriving DecidableEq, Repr

/-! ### Generic `Box` operations, at the level of element lists -/

/-- Loop body of `Box.chunk`'s inner generator, translated faithfully:

    chunk = []
    for value in self:
        chunk.append(value)
        if len(chunk) == chunk_size:
            yield chunk

Note that the accumulator `chunk` is NEVER reset after a yield, so the length
test can succeed at most once.  Each emitted group is modelled as a snapshot of
`chunk` at yield time; in CPython the yielded object is additionally an alias of
the still-growing list, which only makes the divergence from chunking worse. -/
def boxChunkAux (chunkSize : Nat) : List α → List α → List (List α)
  | _, [] => []
  | chunk, v :: rest =>
    let c := chunk ++ [v]
    if c.length = chunkSize then c :: boxChunkAux chunkSize c rest
    else boxChunkAux chunkSize c rest

/-- Embedding of `Box.chunk` (the generic, non-sequence version): the list of
groups yielded by its generator. -/
def boxChunk (chunkSize : Nat) (xs : List α) : List (List α) :=
  boxChunkAux chunkSize [] xs

/-- Embedding of `Box.first`: return the first element if any; on an empty box
raise `IndexError` when `or_fail` is set, else return `None`. -/
def boxFirst (orFail : Bool) : List α → Except PyError (Option α)
  | v :: _ => .ok (some v)
  | [] => if orFail then .error .indexError else .ok none

/-- Embedding of `Box.first_where`: scan for the first element satisfying the
`_where` test (here abstracted as the boolean test `w`, since the claim under
study concerns only the no-match behaviour); on no match raise `IndexError`
when `or_fail` is set, else return `None`. -/
def boxFirstWhere (w : α → Bool) (orFail : Bool) : List α → Except PyError (Option α)
  | item :: rest => if w item then .ok (some item) else boxFirstWhere w orFail rest
  | [] => if orFail then .error .indexError else .ok none

/-- Loop of `Box.reduce`, translated faithfully:

    result = initial_value
    is_first_iteration = True
    for value in self:
        if is_first_iteration and result is None:
            result = value
            is_first_iteration = False
        else:
            result = callback(result, value)
    return result

Note that `is_first_iteration` is cleared ONLY inside the seeding branch; on the
`else` branch it is passed through unchanged. -/
def boxReduceAux (f : Option α → α → Option α) : Bool → Option α → List α → Option α
  | _, result, [] => result
  | isFirst, result, v :: rest =>
    if isFirst && result.isNone then boxReduceAux f false (some v) rest
    else boxReduceAux f isFirst (f result v) rest

/-- Embedding of `Box.reduce` with callback `f` and optional seed
`initialValue` (`none` models the Python default `None`). -/
def boxReduce (f : Option α → α → Option α) (initialValue : Option α) (xs : List α) : Option α :=
  boxReduceAux f true initialValue xs

/-- Accumulator step used by `Box.sum`, i.e. `lambda x, y: x + y` over rational
numbers.  The `none` branch is unreachable inside `boxSum` (the accumulator is
seeded with the first element and `+` never produces `None`); in CPython that
branch would raise `TypeError`. -/
def pyAddAcc (x : Option ℚ) (y : ℚ) : Option ℚ :=
  x.map (fun a => a + y)

/-- Embedding of `Box.sum`: `self.reduce(lambda x, y: x + y)` with no seed,
over rational-valued elements. -/
def boxSum (xs : List ℚ) : Option ℚ :=
  boxReduce pyAddAcc none xs

/-- Embedding of `SizedBox.average`:

    if not self:
        raise ZeroDivisionError
    assert isinstance(the_sum := self.sum(), numbers.Complex)
    return the_sum / len(self)

The failed `assert` (sum returned `None`) is modelled as `assertionError`. -/
def average (xs : List ℚ) : Except PyError ℚ :=
  if xs.isEmpty then .error .zeroDivisionError
  else
    match boxSum xs with
    | some s => .ok (s / (xs.length : ℚ))
    | none => .error .assertionError

/-! ### `SequenceBox` operations, at the level of element lists -/

/-- Python `range(0, stop, step)` for a positive `step` (the only way the source
calls it: `range(0, len(self), chunk_size)`). -/
def pyRangeStep (stop step : Nat) : List Nat :=
  (List.range ((stop + step - 1) / step)).map (fun i => i * step)

/-- Python slice `xs[start : start + len]` for a nonnegative `start`. -/
def pySlice (xs : List α) (start len : Nat) : List α :=
  (xs.drop start).take len

/-- Embedding of `SequenceBox.chunk`:

    return self._new(self[i: i + chunk_size] for i in range(0, len(self), chunk_size))

restricted to a box wrapping an ordered sequence, where `len(self)` and
positional indexing both see the same element list. -/
def seqChunk (chunkSize : Nat) (xs : List α) : List (List α) :=
  (pyRangeStep xs.length chunkSize).map (fun i => pySlice xs i chunkSize)

/-- Embedding of `SequenceBox.reverse`, i.e. `self._new(reversed(self))`, on a
box wrapping an ordered sequence: `reversed` walks indices `len-1` down to `0`,
producing the reversal, and `_new` materialises it into a same-kind sequence. -/
def seqReverse (xs : List α) : List α :=
  xs.reverse

/-! ### Python dynamic values

The parts of the source where dynamic typing matters (`SequenceBox.__init__`,
`Box._new` and the dunder methods inherited from `Box`/`SizedBox`) are embedded
over an explicit Python-value type. -/

/-- Python runtime values of the kinds the library manipulates.  A `setv` and a
`dict` carry their elements or key-value pairs in some iteration order, with
the set understood to be already deduplicated (as Python set construction
guarantees). -/
inductive PyVal where
  | int : Int → PyVal
  | string : String → PyVal
  | list : List PyVal → PyVal
  | tuple : List PyVal → PyVal
  | setv : List PyVal → PyVal
  | dict : List (PyVal × PyVal) → PyVal
  | pynone : PyVal
deriving Repr

mutual

/-- Structural equality on `PyVal`, modelling Python `==` between values of the
modelled kinds. -/
def pyValBeq : PyVal → PyVal → Bool
  | .int a, .int b => a == b
  | .string a, .string b => a == b
  | .list a, .list b => pyValListBeq a b
  | .tuple a, .tuple b => pyValListBeq a b
  | .setv a, .setv b => pyValListBeq a b
  | .dict a, .dict b => pyValPairsBeq a b
  | .pynone, .pynone => true
  | _, _ => false

/-- Elementwise equality of `PyVal` lists. -/
def pyValListBeq : List PyVal → List PyVal → Bool
  | [], [] => true
  | a :: as, b :: bs => pyValBeq a b && pyValListBeq as bs
  | _, _ => false

/-- Pairwise equality of `PyVal` pair lists. -/
def pyValPairsBeq : List (PyVal × PyVal) → List (PyVal × PyVal) → Bool
  | [], [] => true
  | (k1, v1) :: as, (k2, v2) :: bs => pyValBeq k1 k2 && pyValBeq v1 v2 && pyValPairsBeq as bs
  | _, _ => false

end

instance : BEq PyVal := ⟨pyValBeq⟩

/-- Python `isinstance(x, collections.abc.Sequence)` on the modelled kinds: it
holds for `str`, `list` and `tuple` — in particular a text string IS a
registered `Sequence` in Python. -/
def isSequence : PyVal → Bool
  | .string _ => true
  | .list _ => true
  | .tuple _ => true
  | _ => false

/-- State of a constructed `SequenceBox`: `Box.__init__` stores the original
argument in the attribute `_items` (used by the inherited `__iter__`,
`__len__`, `__bool__`, `__contains__`), while `SequenceBox.__init__`
additionally stores the possibly-wrapped value in the distinct attribute
`items`. -/
structure SequenceBox where
  _items : PyVal
  items : PyVal
deriving Repr

/-- Embedding of `SequenceBox.__init__`:

    super().__init__(items)              # sets self._items = items
    if isinstance(items, abc.Sequence):
        self.items = items
    else:
        self.items = [items]
-/
def mkSequenceBox (v : PyVal) : SequenceBox :=
  { _items := v, items := if isSequence v then v else .list [v] }

/-- Python iteration order of a value: characters for a string, elements for a
list/tuple/set, keys for a dict; `none` models the `TypeError` of iterating a
non-iterable. -/
def pyIterList : PyVal → Option (List PyVal)
  | .string s => some (s.toList.map (fun c => .string (String.mk [c])))
  | .list xs => some xs
  | .tuple xs => some xs
  | .setv xs => some xs
  | .dict ps => some (ps.map (fun p => p.1))
  | .int _ => none
  | .pynone => none

/-- Python `len`; `none` models the `TypeError` on unsized values. -/
def pyLen : PyVal → Option Nat
  | .string s => some s.length
  | .list xs => some xs.length
  | .tuple xs => some xs.length
  | .setv xs => some xs.length
  | .dict ps => some ps.length
  | .int _ => none
  | .pynone => none

/-- Python truthiness `bool(x)` on the modelled kinds. -/
def pyBool : PyVal → Bool
  | .int n => n != 0
  | .string s => s.length != 0
  | .list xs => !xs.isEmpty
  | .tuple xs => !xs.isEmpty
  | .setv xs => !xs.isEmpty
  | .dict ps => !ps.isEmpty
  | .pynone => false

/-- Substring test, modelling Python `needle in haystack` on strings. -/
def strContains (hay needle : String) : Bool :=
  (List.range (hay.length + 1)).any
    (fun i => (hay.toList.drop i).take needle.length == needle.toList)

/-- Python membership `x in container`: substring search on strings (requiring
a string operand, else `TypeError`, modelled by `none`), element equality on
list/tuple/set, key membership on dict, `TypeError` on non-containers. -/
def pyContains (container x : PyVal) : Option Bool :=
  match container with
  | .string s =>
    match x with
    | .string t => some (strContains s t)
    | _ => none
  | .list xs => some (xs.contains x)
  | .tuple xs => some (xs.contains x)
  | .setv xs => some (xs.contains x)
  | .dict ps => some (ps.any (fun p => pyValBeq p.1 x))
  | .int _ => none
  | .pynone => none

/-- Embedding of the inherited `Box.__iter__` on a `SequenceBox`: it yields
from the attribute `_items`, not from `items`. -/
def boxIterList (b : SequenceBox) : Option (List PyVal) :=
  pyIterList b._items

/-- Embedding of the inherited `SizedBox.__len__`: `len(self._items)`. -/
def boxLen (b : SequenceBox) : Option Nat :=
  pyLen b._items

/-- Embedding of the inherited `Box.__bool__`: `bool(self._items)`. -/
def boxBool (b : SequenceBox) : Bool :=
  pyBool b._items

/-- Embedding of the inherited `Box.__contains__`: `obj in self._items`. -/
def boxContains (b : SequenceBox) (x : PyVal) : Option Bool :=
  pyContains b._items x

/-! ### `Box._new` and its `item_type` reconstruction -/

/-- Concrete Python container classes occurring as `item_type`, i.e. as
`type(self._items)`. -/
inductive PyType where
  | intT
  | strT
  | listT
  | tupleT
  | setT
  | dictT
  | noneT
deriving DecidableEq, Repr

/-- Python `type(x)` on the modelled kinds. -/
def pyTypeOf : PyVal → PyType
  | .int _ => .intT
  | .string _ => .strT
  | .list _ => .listT
  | .tuple _ => .tupleT
  | .setv _ => .setT
  | .dict _ => .dictT
  | .pynone => .noneT

/-- Deduplication keeping first occurrences, as performed by Python set
construction from an iterable. -/
def pyDedup (xs : List PyVal) : List PyVal :=
  xs.foldl (fun acc x => if acc.contains x then acc else acc ++ [x]) []

/-- Interpretation of a value as a key-value pair during `dict(iterable)`
construction: a two-element list, tuple or string qualifies; anything else
makes the construction raise. -/
def asPair : PyVal → Option (PyVal × PyVal)
  | .list [k, v] => some (k, v)
  | .tuple [k, v] => some (k, v)
  | .string s =>
    match s.toList with
    | [c1, c2] => some (.string (String.mk [c1]), .string (String.mk [c2]))
    | _ => none
  | _ => none

/-- Key-overwriting insertion into an association list, modelling how
`dict(pairs)` keeps the last value for a repeated key. -/
def dictUpsert (ps : List (PyVal × PyVal)) (k v : PyVal) : List (PyVal × PyVal) :=
  if ps.any (fun p => pyValBeq p.1 k) then
    ps.map (fun p => if pyValBeq p.1 k then (p.1, v) else p)
  else ps ++ [(k, v)]

/-- Python `K(iterable)` for a container class `K`, as invoked by
`Box._new` through `self.item_type(items)`:
`list`/`tuple` collect the elements, `set` deduplicates them, `dict` requires
every element to be a pair-like (else it raises, modelled as `typeError`),
`str` applied to a generator returns the generator's repr text (CPython
behaviour — a string of that shape, whose exact characters are irrelevant
here), and `int`/`NoneType` applied to a generator raise `TypeError`. -/
def pyConstruct : PyType → List PyVal → Except PyError PyVal
  | .listT, els => .ok (.list els)
  | .tupleT, els => .ok (.tuple els)
  | .setT, els => .ok (.setv (pyDedup els))
  | .strT, _ => .ok (.string "<generator object>")
  | .dictT, els =>
    match els.mapM asPair with
    | some ps => .ok (.dict (ps.foldl (fun acc p => dictUpsert acc p.1 p.2) []))
    | none => .error .typeError
  | .intT, _ => .error .typeError
  | .noneT, _ => .error .typeError

/-- Embedding of `Box.map` with the identity callback on a box whose `_items`
is `v`, followed through `Box._new`:

    self._new(callback(value) for value in self)   with   callback = identity
    _new: type(self)(self.item_type(items))

The result is the `_items` container of the new box (or the exception raised
while building it). -/
def boxMapId (v : PyVal) : Except PyError PyVal :=
  match pyIterList v with
  | some els => pyConstruct (pyTypeOf v) els
  | none => .error .typeError

/-! ### Helper lemmas about `Box.reduce` and `Box.sum` -/

/-- Once the first-iteration flag is cleared, `Box.reduce`'s loop is an
ordinary left fold of the callback. -/
theorem boxReduceAux_false_eq_foldl (f : Option α → α → Option α) (l : List α) :
    ∀ r : Option α, boxReduceAux f false r l = l.foldl f r := by
  induction l with
  | nil => intro r; rfl
  | cons v rest ih => intro r; simp [boxReduceAux, ih]

/-- With no seed, `Box.reduce` seeds the accumulator with the first element and
then left-folds the callback over the remaining elements. -/
theorem boxReduce_none_cons (f : Option α → α → Option α) (x : α) (xs : List α) :
    boxReduce f none (x :: xs) = xs.foldl f (some x) := by
  simp [boxReduce, boxReduceAux, boxReduceAux_false_eq_foldl]

/-- Folding the `sum` accumulator step from a seeded accumulator is addition. -/
theorem foldl_pyAddAcc (xs : List ℚ) :
    ∀ a : ℚ, xs.foldl pyAddAcc (some a) = some (xs.foldl (· + ·) a) := by
  induction xs with
  | nil => intro a; rfl
  | cons y rest ih => intro a; simp [List.foldl, pyAddAcc, ih]

/-- Value of `Box.sum` on a non-empty box. -/
theorem boxSum_cons (x : ℚ) (xs : List ℚ) :
    boxSum (x :: xs) = some (xs.foldl (· + ·) x) := by
  rw [boxSum, boxReduce_none_cons, foldl_pyAddAcc]

/-- When every element fails the `_where` test, `Box.first_where` with
`or_fail` reaches the end of the loop and raises `IndexError`. -/
theorem boxFirstWhere_no_match (w : α → Bool) (xs : List α)
    (h : ∀ x ∈ xs, w x = false) :
    boxFirstWhere w true xs = .error .indexError := by
  induction xs with
  | nil => rfl
  | cons a rest ih =>
    have ha : w a = false := h a (List.mem_cons_self a rest)
    simp only [boxFirstWhere, ha, Bool.false_eq_true, if_false]
    exact ih (fun x hx => h x (List.mem_cons_of_mem a hx))

/-! ### Claim theorems -/

/-- Claim C1 (evaluation at the failing input): a generic `Box` over the five
elements `[1,2,3,4,5]` with `chunk(2)` yields exactly ONE group, `[1,2]` — not
the two groups of size 2 the specification claims.  The generator's
accumulator is never reset after a yield, so `len(chunk) == chunk_size` can
only succeed once (and the already-yielded list keeps growing afterwards). -/
theorem boxChunk_yields_single_group :
    boxChunk 2 ([1, 2, 3, 4, 5] : List Int) = [[1, 2]] ∧
    (boxChunk 2 ([1, 2, 3, 4, 5] : List Int)).length ≠ 2 := by
  refine ⟨rfl, ?_⟩
  rw [show boxChunk 2 ([1, 2, 3, 4, 5] : List Int) = [[1, 2]] from rfl]
  decide

/-- Claim C2 (evaluation at the failing input): a Python `str` is a registered
`abc.Sequence`, so `SequenceBox("foo")` stores the string itself in `items` —
NOT the one-element wrap `["foo"]` — and the box has length 3 and iterates the
three characters. -/
theorem seqBox_string_is_char_sequence :
    (mkSequenceBox (.string "foo")).items = .string "foo" ∧
    (mkSequenceBox (.string "foo")).items ≠ .list [.string "foo"] ∧
    boxLen (mkSequenceBox (.string "foo")) = some 3 ∧
    boxIterList (mkSequenceBox (.string "foo")) =
      some [.string "f", .string "o", .string "o"] := by
  refine ⟨rfl, ?_, rfl, rfl⟩
  intro h
  simp [mkSequenceBox, isSequence] at h

/-- Claim C3 (counterexample): with the explicit seed `0` and a callback that
always returns `None`, `reduce` over `[1, 2]` returns `2` — the callback's
`None` on the first iteration DID re-trigger use-first-element seeding on the
second iteration (a strict no-re-seeding fold would return `None`), because
`is_first_iteration` is only cleared inside the seeding branch and an explicit
seed prevents that branch from ever running. -/
theorem reduce_reseeds_after_callback_none :
    boxReduce (fun _ _ => (none : Option Int)) (some 0) [1, 2] = some 2 ∧
    (some 2 : Option Int) ≠ none := by
  exact ⟨rfl, by simp⟩

/-- Claim C3 (amended): reduce of an empty box without a seed returns `None`;
with no seed the first element seeds the accumulator and the rest is a strict
left fold (so a `None` from the callback never re-triggers seeding there); but
with an explicit seed the first-iteration flag is never cleared, so whenever
the callback returns `None` the NEXT element re-seeds the accumulator and the
tail is folded from that element. -/
theorem reduce_seeding_spec (f : Option α → α → Option α) (a x y : α)
    (xs rest : List α) (hseed : f (some a) x = none) :
    boxReduce f none [] = none ∧
    boxReduce f none (x :: xs) = xs.foldl f (some x) ∧
    boxReduce f (some a) (x :: y :: rest) = rest.foldl f (some y) := by
  refine ⟨rfl, boxReduce_none_cons f x xs, ?_⟩
  show boxReduceAux f true (some a) (x :: y :: rest) = _
  simp only [boxReduceAux, Option.isNone_some, Bool.and_false, Bool.false_eq_true, if_false,
    hseed, Option.isNone_none, Bool.and_true, if_true]
  exact boxReduceAux_false_eq_foldl f rest (some y)

/-- Witness for the amended claim C3, at the seed 0, the always-`None`
callback, and the element lists `[1, 3]` and `[1, 2, 4]`. -/
theorem reduce_seeding_spec_witness :
    boxReduce (fun _ _ => (none : Option Int)) none [] = none ∧
    boxReduce (fun _ _ => (none : Option Int)) none (1 :: [3]) =
      [3].foldl (fun _ _ => (none : Option Int)) (some 1) ∧
    boxReduce (fun _ _ => (none : Option Int)) (some 0) (1 :: 2 :: [4]) =
      [4].foldl (fun _ _ => (none : Option Int)) (some 2) :=
  reduce_seeding_spec (fun _ _ => none) 0 1 2 [3] [4] rfl

/-- Claim C8: double reversal of a `SequenceBox` over a non-empty ordered
sequence restores the original element list. -/
theorem seqReverse_involution (xs : List α) (_h : xs ≠ []) :
    seqReverse (seqReverse xs) = xs := by
  simp [seqReverse]

/-- Witness for claim C8 at the list `[1, 2, 3]`. -/
theorem seqReverse_involution_witness :
    ([1, 2, 3] : List Int) ≠ [] ∧
    seqReverse (seqReverse ([1, 2, 3] : List Int)) = [1, 2, 3] :=
  ⟨by simp, seqReverse_involution [1, 2, 3] (by simp)⟩

/-- Claim C9: `sum()` of an empty box is `None` (not 0), `sum()` of a
non-empty box is the left fold of its elements under `+` seeded with the first
element, and `SequenceBox([1,2,3,5]).sum() == 11`. -/
theorem sum_none_on_empty_foldl_otherwise (x : ℚ) (xs : List ℚ) :
    boxSum [] = none ∧
    boxSum (x :: xs) = some (xs.foldl (· + ·) x) ∧
    boxSum [1, 2, 3, 5] = some 11 := by
  refine ⟨rfl, boxSum_cons x xs, ?_⟩
  rw [show ([1, 2, 3, 5] : List ℚ) = (1 : ℚ) :: [2, 3, 5] from rfl, boxSum_cons]
  norm_num [List.foldl]

/-- Claim C7: `average()` of an empty sized box raises `ZeroDivisionError`;
otherwise it is `sum() / len()`; and `SequenceBox([1,2,3,5]).average()` equals
2.75. -/
theorem average_sum_div_len (x : ℚ) (xs : List ℚ) :
    average [] = .error .zeroDivisionError ∧
    average (x :: xs) = .ok ((xs.foldl (· + ·) x) / ((x :: xs).length : ℚ)) ∧
    average [1, 2, 3, 5] = .ok 2.75 := by
  refine ⟨rfl, ?_, ?_⟩
  · rw [average, if_neg (by simp), boxSum_cons]
  · rw [show ([1, 2, 3, 5] : List ℚ) = (1 : ℚ) :: [2, 3, 5] from rfl, average,
      if_neg (by simp), boxSum_cons]
    norm_num [List.foldl]

/-- Claim C4 (counterexample): the three operations do not share one
"EmptyCollection" error class — no such class exists in the code.
`first(or_fail=True)` on an empty box raises `IndexError` while `average()` on
an empty box raises `ZeroDivisionError`, a different class. -/
theorem empty_error_classes_not_unified :
    boxFirst true ([] : List ℚ) = .error .indexError ∧
    average [] = .error .zeroDivisionError ∧
    PyError.indexError ≠ PyError.zeroDivisionError :=
  ⟨rfl, rfl, by decide⟩

/-- Claim C4 (amended): `first(or_fail=True)` on an empty box and
`first_where(..., or_fail=True)` with no matching element both raise the same
class, `IndexError`; `average()` on an empty sized box raises
`ZeroDivisionError`, which is a different class; no `EmptyCollection` class
exists. -/
theorem first_and_average_error_classes (w : ℚ → Bool) (xs : List ℚ)
    (h : ∀ x ∈ xs, w x = false) :
    boxFirst true ([] : List ℚ) = .error .indexError ∧
    boxFirstWhere w true xs = .error .indexError ∧
    average [] = .error .zeroDivisionError ∧
    PyError.indexError ≠ PyError.zeroDivisionError :=
  ⟨rfl, boxFirstWhere_no_match w xs h, rfl, by decide⟩

/-- Witness for the amended claim C4 at the never-true test over `[1]`. -/
theorem first_and_average_error_classes_witness :
    boxFirst true ([] : List ℚ) = .error .indexError ∧
    boxFirstWhere (fun _ => false) true ([1] : List ℚ) = .error .indexError ∧
    average [] = .error .zeroDivisionError ∧
    PyError.indexError ≠ PyError.zeroDivisionError :=
  first_and_average_error_classes (fun _ => false) [1] (fun _ _ => rfl)

/-- Claim C5 (counterexample): type preservation does NOT hold for every
container.  For a mapping box, `map(identity)` iterates the keys and `_new`
calls `dict(<generator of keys>)`, which raises `TypeError` when a key (here
the integer 0) is not itself a key-value pair, so no result box exists at
all. -/
theorem mapId_dict_raises :
    boxMapId (.dict [(.int 0, .int 1)]) = .error .typeError := rfl

/-- Claim C5 (amended): for list, tuple and set containers, `map(identity)`
rebuilds the underlying container by invoking `item_type` on the produced
iterable and the result has the same concrete kind as the input; for mapping
containers the rebuild from the iterated keys raises `TypeError` instead
(whenever a key is not itself pair-like), so the universal claim fails
there. -/
theorem mapId_type_preservation (v : PyVal)
    (h : pyTypeOf v = .listT ∨ pyTypeOf v = .tupleT ∨ pyTypeOf v = .setT) :
    (∃ w, boxMapId v = .ok w ∧ pyTypeOf w = pyTypeOf v) ∧
    boxMapId (.dict [(.int 0, .int 1)]) = .error .typeError := by
  refine ⟨?_, rfl⟩
  rcases v with n | s | els | els | els | ps | _
  · exact absurd h (by simp [pyTypeOf])
  · exact absurd h (by simp [pyTypeOf])
  · exact ⟨.list els, rfl, rfl⟩
  · exact ⟨.tuple els, rfl, rfl⟩
  · exact ⟨.setv (pyDedup els), rfl, rfl⟩
  · exact absurd h (by simp [pyTypeOf])
  · exact absurd h (by simp [pyTypeOf])

/-- Witness for the amended claim C5 at the one-element list container. -/
theorem mapId_type_preservation_witness :
    (∃ w, boxMapId (.list [.int 1]) = .ok w ∧ pyTypeOf w = pyTypeOf (.list [.int 1])) ∧
    boxMapId (.dict [(.int 0, .int 1)]) = .error .typeError :=
  mapId_type_preservation (.list [.int 1]) (Or.inl rfl)

/-- Claim C10: for a value that is not an ordered indexable sequence,
`SequenceBox` stores the one-element wrap only in `items`, while the inherited
iteration, length, truthiness and membership all read the original value in
`_items`; concretely, `SequenceBox({1,2,3})` has `items` equal to
`[{1,2,3}]` (length 1 as a list) yet the box itself has length 3 and iterates
the three set elements. -/
theorem nonsequence_wrap_dunder_disagreement (v : PyVal) (h : isSequence v = false) :
    (mkSequenceBox v).items = .list [v] ∧
    (mkSequenceBox v)._items = v ∧
    boxIterList (mkSequenceBox v) = pyIterList v ∧
    boxLen (mkSequenceBox v) = pyLen v ∧
    boxBool (mkSequenceBox v) = pyBool v ∧
    (∀ w, boxContains (mkSequenceBox v) w = pyContains v w) ∧
    (mkSequenceBox (.setv [.int 1, .int 2, .int 3])).items =
      .list [.setv [.int 1, .int 2, .int 3]] ∧
    boxLen (mkSequenceBox (.setv [.int 1, .int 2, .int 3])) = some 3 ∧
    pyLen ((mkSequenceBox (.setv [.int 1, .int 2, .int 3])).items) = some 1 ∧
    boxIterList (mkSequenceBox (.setv [.int 1, .int 2, .int 3])) =
      some [.int 1, .int 2, .int 3] := by
  refine ⟨?_, rfl, rfl, rfl, rfl, fun w => rfl, rfl, rfl, rfl, rfl⟩
  simp [mkSequenceBox, h]

/-- Witness for claim C10 at the set `{1, 2, 3}`. -/
theorem nonsequence_wrap_dunder_disagreement_witness :
    (mkSequenceBox (.setv [.int 1, .int 2, .int 3])).items =
      .list [.setv [.int 1, .int 2, .int 3]] ∧
    (mkSequenceBox (.setv [.int 1, .int 2, .int 3]))._items =
      .setv [.int 1, .int 2, .int 3] ∧
    boxIterList (mkSequenceBox (.setv [.int 1, .int 2, .int 3])) =
      pyIterList (.setv [.int 1, .int 2, .int 3]) ∧
    boxLen (mkSequenceBox (.setv [.int 1, .int 2, .int 3])) =
      pyLen (.setv [.int 1, .int 2, .int 3]) ∧
    boxBool (mkSequenceBox (.setv [.int 1, .int 2, .int 3])) =
      pyBool (.setv [.int 1, .int 2, .int 3]) ∧
    (∀ w, boxContains (mkSequenceBox (.setv [.int 1, .int 2, .int 3])) w =
      pyContains (.setv [.int 1, .int 2, .int 3]) w) ∧
    (mkSequenceBox (.setv [.int 1, .int 2, .int 3])).items =
      .list [.setv [.int 1, .int 2, .int 3]] ∧
    boxLen (mkSequenceBox (.setv [.int 1, .int 2, .int 3])) = some 3 ∧
    pyLen ((mkSequenceBox (.setv [.int 1, .int 2, .int 3])).items) = some 1 ∧
    boxIterList (mkSequenceBox (.setv [.int 1, .int 2, .int 3])) =
      some [.int 1, .int 2, .int 3] :=
  nonsequence_wrap_dunder_disagreement (.setv [.int 1, .int 2, .int 3]) rfl

/-! ### Helper lemmas about `SequenceBox.chunk` -/

/-- Index formula for `SequenceBox.chunk`: the group at slot `i` is the slice
starting at offset `i * chunk_size`. -/
theorem seqChunk_eq_map (n : Nat) (xs : List α) :
    seqChunk n xs =
      (List.range ((xs.length + n - 1) / n)).map (fun i => (xs.drop (i * n)).take n) := by
  simp only [seqChunk, pyRangeStep, List.map_map]
  rfl

/-- Chunking the empty sequence produces no groups. -/
theorem seqChunk_nil (n : Nat) : seqChunk n ([] : List α) = [] := by
  have h : (([] : List α).length + n - 1) / n = 0 := by
    rcases Nat.eq_zero_or_pos n with h | h
    · subst h; simp
    · simp only [List.length_nil, Nat.zero_add]
      exact Nat.div_eq_of_lt (by omega)
  rw [seqChunk_eq_map]
  simp only [List.length_nil] at h ⊢
  rw [h]
  rfl

/-- Ceiling-division step: one more group is needed for a non-empty list than
for the list with its first `n` elements removed. -/
theorem ceilDiv_succ (n len : Nat) (hn : 0 < n) (hlen : 0 < len) :
    (len + n - 1) / n = ((len - n) + n - 1) / n + 1 := by
  have h1 : len + n - 1 = (len - 1) + n := by omega
  rw [h1, Nat.add_div_right _ hn]
  rcases le_or_lt len n with h | h
  · have h2 : len - n = 0 := by omega
    have h3 : (len - 1) / n = 0 := Nat.div_eq_of_lt (by omega)
    have h4 : (0 + n - 1) / n = 0 := Nat.div_eq_of_lt (by omega)
    rw [h2, h3, h4]
  · have h2 : (len - n) + n - 1 = len - 1 := by omega
    rw [h2]

/-- Unfolding step of `SequenceBox.chunk`: the first group is the first `n`
elements and the remaining groups chunk the rest. -/
theorem seqChunk_cons (n : Nat) (hn : 0 < n) (xs : List α) (hxs : xs ≠ []) :
    seqChunk n xs = xs.take n :: seqChunk n (xs.drop n) := by
  have hlen : 0 < xs.length := List.length_pos.mpr hxs
  rw [seqChunk_eq_map, seqChunk_eq_map, List.length_drop,
    ceilDiv_succ n xs.length hn hlen, List.range_succ_eq_map, List.map_cons, List.map_map]
  refine congrArg₂ List.cons ?_ ?_
  · simp
  · refine congrArg (fun f => List.map f (List.range ((xs.length - n + n - 1) / n))) ?_
    funext i
    simp only [Function.comp_apply, List.drop_drop]
    simp only [Nat.succ_eq_add_one]
    ring_nf

/-- Concatenating the groups of `SequenceBox.chunk` restores the sequence:
no element is dropped, including those of a final short group. -/
theorem seqChunk_flatten (n : Nat) (hn : 0 < n) (xs : List α) :
    (seqChunk n xs).flatten = xs := by
  suffices H : ∀ (k : Nat) (ys : List α), ys.length ≤ k → (seqChunk n ys).flatten = ys from
    H xs.length xs le_rfl
  intro k
  induction k with
  | zero =>
    intro ys hy
    have h0 : ys = [] := by
      cases ys with
      | nil => rfl
      | cons a t => simp at hy
    rw [h0, seqChunk_nil]
    rfl
  | succ k ih =>
    intro ys hy
    by_cases hys : ys = []
    · rw [hys, seqChunk_nil]; rfl
    · have hlen := List.length_pos.mpr hys
      rw [seqChunk_cons n hn ys hys, List.flatten_cons,
        ih (ys.drop n) (by rw [List.length_drop]; omega),
        List.take_append_drop]

/-- Every group emitted by `SequenceBox.chunk` is non-empty and no longer than
the requested size. -/
theorem seqChunk_mem_sizes (n : Nat) (hn : 0 < n) (xs : List α) :
    ∀ c ∈ seqChunk n xs, 0 < c.length ∧ c.length ≤ n := by
  suffices H : ∀ (k : Nat) (ys : List α), ys.length ≤ k →
      ∀ c ∈ seqChunk n ys, 0 < c.length ∧ c.length ≤ n from
    H xs.length xs le_rfl
  intro k
  induction k with
  | zero =>
    intro ys hy c hc
    have h0 : ys = [] := by
      cases ys with
      | nil => rfl
      | cons a t => simp at hy
    rw [h0, seqChunk_nil] at hc
    exact absurd hc (List.not_mem_nil c)
  | succ k ih =>
    intro ys hy c hc
    by_cases hys : ys = []
    · rw [hys, seqChunk_nil] at hc
      exact absurd hc (List.not_mem_nil c)
    · have hlen := List.length_pos.mpr hys
      rw [seqChunk_cons n hn ys hys] at hc
      rcases List.mem_cons.mp hc with h | h
      · subst h
        rw [List.length_take]
        omega
      · exact ih (ys.drop n) (by rw [List.length_drop]; omega) c h

/-- Every group of `SequenceBox.chunk` except possibly the last has exactly
the requested size. -/
theorem seqChunk_dropLast_sizes (n : Nat) (hn : 0 < n) (xs : List α) :
    ∀ c ∈ (seqChunk n xs).dropLast, c.length = n := by
  suffices H : ∀ (k : Nat) (ys : List α), ys.length ≤ k →
      ∀ c ∈ (seqChunk n ys).dropLast, c.length = n from
    H xs.length xs le_rfl
  intro k
  induction k with
  | zero =>
    intro ys hy c hc
    have h0 : ys = [] := by
      cases ys with
      | nil => rfl
      | cons a t => simp at hy
    rw [h0, seqChunk_nil] at hc
    exact absurd hc (List.not_mem_nil c)
  | succ k ih =>
    intro ys hy c hc
    by_cases hys : ys = []
    · rw [hys, seqChunk_nil] at hc
      exact absurd hc (List.not_mem_nil c)
    · have hlen := List.length_pos.mpr hys
      rw [seqChunk_cons n hn ys hys] at hc
      by_cases hd : ys.drop n = []
      · rw [hd, seqChunk_nil] at hc
        simp at hc
      · have hne : seqChunk n (ys.drop n) ≠ [] := by
          rw [seqChunk_cons n hn (ys.drop n) hd]
          exact List.cons_ne_nil _ _
        obtain ⟨b, t, hbt⟩ := List.exists_cons_of_ne_nil hne
        rw [hbt] at hc
        have hdl : (ys.take n :: b :: t).dropLast = ys.take n :: (b :: t).dropLast := rfl
        rw [hdl] at hc
        have hdlen : 0 < (ys.drop n).length := List.length_pos.mpr hd
        rw [List.length_drop] at hdlen
        rcases List.mem_cons.mp hc with h | h
        · subst h
          rw [List.length_take]
          omega
        · rw [← hbt] at h
          exact ih (ys.drop n) (by rw [List.length_drop]; omega) c h

/-- Claim C6: on an ordered sequence of length at least 2 with
`0 < chunk_size < length`, `SequenceBox.chunk` slices the sequence into groups
that together exhaust it — all groups before the last have exactly the
requested size and every group (including a final short one) is non-empty and
at most that size; in particular `[1,2,3,4,5]` with `chunk(2)` gives the three
groups `[1,2]`, `[3,4]`, `[5]` of sizes 2, 2, 1. -/
theorem seqChunk_exhaustive (n : Nat) (xs : List α) (h1 : 0 < n) (_h2 : n < xs.length) :
    (seqChunk n xs).flatten = xs ∧
    (∀ c ∈ (seqChunk n xs).dropLast, c.length = n) ∧
    (∀ c ∈ seqChunk n xs, 0 < c.length ∧ c.length ≤ n) ∧
    seqChunk 2 ([1, 2, 3, 4, 5] : List Int) = [[1, 2], [3, 4], [5]] ∧
    (seqChunk 2 ([1, 2, 3, 4, 5] : List Int)).map List.length = [2, 2, 1] :=
  ⟨seqChunk_flatten n h1 xs, seqChunk_dropLast_sizes n h1 xs,
    seqChunk_mem_sizes n h1 xs, rfl, rfl⟩

/-- Witness for claim C6 at `chunk_size = 2` over `[1, 2, 3, 4, 5]`. -/
theorem seqChunk_exhaustive_witness :
    (seqChunk 2 ([1, 2, 3, 4, 5] : List Int)).flatten = [1, 2, 3, 4, 5] ∧
    (∀ c ∈ (seqChunk 2 ([1, 2, 3, 4, 5] : List Int)).dropLast, c.length = 2) ∧
    (∀ c ∈ seqChunk 2 ([1, 2, 3, 4, 5] : List Int), 0 < c.length ∧ c.length ≤ 2) ∧
    seqChunk 2 ([1, 2, 3, 4, 5] : List Int) = [[1, 2], [3, 4], [5]] ∧
    (seqChunk 2 ([1, 2, 3, 4, 5] : List Int)).map List.length = [2, 2, 1] :=
  seqChunk_exhaustive 2 [1, 2, 3, 4, 5] (by decide) (by decide)

end PyBox
